import Mathlib

/-
Shallow embedding of `src/erpy/instances/reproducers/unique.py`:
the uniqueness-constrained population initializer / reproducer
(`UniqueReproducerConfig`, `UniqueReproducer`) of the erpy framework.

Modelling conventions:
* Python `int` is `Int`; counters that only count up are `Nat` and are cast
  where the source compares them against the `Int` field `max_retries`.
* A Python `while` loop with condition `not test(...) and num_retries < max_retries`
  is embedded as structural recursion on the fuel
  `remaining = max_retries - num_retries` (truncated at 0), with the running
  counter `num_retries` carried alongside so the value the source observes
  after the loop is returned unchanged.  At every call site the loop starts
  with `num_retries = 0` and `remaining = max_retries.toNat`, which makes the
  fuel condition `remaining > 0` equivalent to the source's
  `num_retries < max_retries`.
* `population.genomes` (a Python dict keyed by genome id) is an association
  list with dict-assignment semantics (`dinsert`: replace in place if the key
  exists, append otherwise); `to_evaluate` is a `Finset Nat`;
  `to_reproduce` is the iteration order of the Python set, hence a `List Nat`.
* `population.saving_data` is only ever used at the single fixed key
  "unique-reproducer-archive", so it is embedded as the `Option`-valued field
  `savedArchive`; likewise `logging_data` at its single key is `loggingUnique`.
  After `_initialise_from_checkpoint` the stored archive and `self._archive`
  are the same Python object; operations that grow the archive therefore
  update `savedArchive` in lockstep exactly when it currently holds the same
  set as `self._archive` (the value-level rendering of that aliasing).
* Exceptions (`assert`, missing dict key) are `Except PyError`; the asserts
  fire before any mutation, so an error result stands for an unchanged state.
* The genome collaborators `Genome.generate` / `Genome.mutate` and the
  uniqueness test are external, pluggable values (`GenomeOps`, a test
  function); the test receives the archive and returns the possibly grown
  archive, which renders its only permitted side effect.
-/

namespace Erpy

/-- Python exception kinds reachable in the embedded code. -/
inductive PyError where
  | assertionError
  | keyError
  | typeError
deriving DecidableEq, Repr

/-- A genome: opaque payload `data` plus the mutable `genome_id` field that
`unique.py` reads and reassigns (`child_genome.genome_id = parent_id`). -/
structure Genome (α : Type) where
  genome_id : Nat
  data : α
deriving DecidableEq, Repr

/-- External genome collaborators (spec section 6):
`mut g i` embeds `g.mutate(i)` and `gen i` embeds
`Genome.generate(config=self.config.genome_config, genome_id=i)` with the
genome config baked in. -/
structure GenomeOps (α : Type) where
  mutate : Genome α → Nat → Genome α
  generate : Nat → Genome α

/-- The contract-relevant fields of `Population`.  `savedArchive` is
`population.saving_data["unique-reproducer-archive"]` (absent = `none`);
`loggingUnique` is
`population.logging_data["UniqueReproducer/number_of_unique_genomes"]`. -/
structure Population (α σ : Type) where
  genomes : List (Nat × Genome α)
  to_evaluate : Finset Nat
  to_reproduce : List Nat
  population_size : Nat
  savedArchive : Option (Finset σ)
  loggingUnique : Option Nat

/-- The reproducer's own mutable state: `self._archive` and the framework
genome-id counter behind `self.next_genome_id`.
`nextId` is modelled from the spec: the framework base class (not part of
this excerpt) hands out a fresh identity on each access ("Generate a fresh
genome with a new identity"), embedded as a counter. -/
structure ReproducerState (σ : Type) where
  archive : Option (Finset σ)
  nextId : Nat

/-- The uniqueness test (spec section 4.2): receives the archive, a candidate
and the population; returns acceptance plus the archive after its only
permitted side effect (recording the candidate's signature). -/
abbrev UTest (α σ : Type) := Finset σ → Genome α → Population α σ → Bool × Finset σ

/-- `UniqueReproducerConfig` fields.  `max_retries` is a Python `int`. -/
structure UniqueReproducerConfig (α σ : Type) where
  uniqueness_test : UTest α σ
  max_retries : Int
  initialisation_f : Option (ReproducerState σ → Population α σ → ReproducerState σ × Population α σ)

/-- Construction of `UniqueReproducerConfig`.  The class is a plain
`@dataclass`: the only failure Python produces is a `TypeError` when the
required field `uniqueness_test` is omitted (here: `none`); no field value is
validated. -/
def mkUniqueReproducerConfig (test : Option (UTest α σ)) (max_retries : Int)
    (init_f : Option (ReproducerState σ → Population α σ → ReproducerState σ × Population α σ)) :
    Except PyError (UniqueReproducerConfig α σ) :=
  match test with
  | none => .error .typeError
  | some t => .ok ⟨t, max_retries, init_f⟩

/-- `UniqueReproducer.__init__`: sets `self._archive = None`.  The framework
`super().__init__(config)` is modelled from the spec as recording the config
and the genome-id counter `n0`. -/
def mkUniqueReproducer (n0 : Nat) : ReproducerState σ :=
  ⟨none, n0⟩

/-- Python dict assignment `d[k] = v` on an association list: replace the
binding in place when the key is present, append otherwise. -/
def dinsert (k : Nat) (v : Genome α) : List (Nat × Genome α) → List (Nat × Genome α)
  | [] => [(k, v)]
  | (k', v') :: t => if k = k' then (k, v) :: t else (k', v') :: dinsert k v t

/-- Python dict lookup `d[k]` on an association list (`none` = `KeyError`). -/
def dlookup (k : Nat) : List (Nat × Genome α) → Option (Genome α)
  | [] => none
  | (k', v') :: t => if k = k' then some v' else dlookup k t

/-- The archive attach of `_initialise_from_checkpoint`:
`try: self._archive = population.saving_data[key]`
`except KeyError: self._archive = set(); population.saving_data[key] = self._archive`.
Returns the archive `self._archive` now refers to, plus the population. -/
def attachOrCreate (pop : Population α σ) : Finset σ × Population α σ :=
  match pop.savedArchive with
  | some a => (a, pop)
  | none => (∅, { pop with savedArchive := some (∅ : Finset σ) })

/-- `UniqueReproducer._initialise_from_checkpoint`.  The framework call
`super().initialise_from_checkpoint(population)` is out of scope of this
excerpt and, per the spec, touches neither the archive nor the archive key;
it is modelled as the identity on the embedded fields. -/
def initialiseFromCheckpoint (st : ReproducerState σ) (pop : Population α σ) :
    ReproducerState σ × Population α σ :=
  let r := attachOrCreate pop
  ({ st with archive := some r.1 }, r.2)

/-- The mutate-retry loop of `reproduce`:
`while not test(archive, child_genome, population) and num_retries < max_retries:`
`    child_genome.genome_id = parent_id`
`    child_genome = child_genome.mutate(child_id)`
`    num_retries += 1`
`remaining` is the fuel `max_retries - num_retries` (see file header); `n` is
`num_retries`.  Returns the final candidate, the final archive and the final
value of `num_retries`. -/
def mutateRetryAux (test : UTest α σ) (ops : GenomeOps α) (pop : Population α σ)
    (parentId childId : Nat) :
    Nat → Genome α → Finset σ → Nat → Genome α × Finset σ × Nat
  | remaining, cand, arch, n =>
    let r := test arch cand pop
    if r.1 then (cand, r.2, n)
    else
      match remaining with
      | 0 => (cand, r.2, n)
      | remaining' + 1 =>
          mutateRetryAux test ops pop parentId childId remaining'
            (ops.mutate { cand with genome_id := parentId } childId) r.2 (n + 1)

/-- The mutate-retry loop started as in the source: `num_retries = 0`, loop
bound `num_retries < max_retries`. -/
def mutateRetryLoop (test : UTest α σ) (ops : GenomeOps α) (pop : Population α σ)
    (parentId childId : Nat) (maxRetries : Int) (cand : Genome α) (arch : Finset σ) :
    Genome α × Finset σ × Nat :=
  mutateRetryAux test ops pop parentId childId maxRetries.toNat cand arch 0

/-- The regenerate-retry loop, shared shape between the initialisation loop
and the regenerate fallback of `reproduce`:
`while not test(archive, genome, population) and num_retries < max_retries:`
`    genome = Genome.generate(config, genome_id=gid)`
`    num_retries += 1` -/
def generateRetryAux (test : UTest α σ) (ops : GenomeOps α) (pop : Population α σ)
    (gid : Nat) :
    Nat → Genome α → Finset σ → Nat → Genome α × Finset σ × Nat
  | remaining, cand, arch, n =>
    let r := test arch cand pop
    if r.1 then (cand, r.2, n)
    else
      match remaining with
      | 0 => (cand, r.2, n)
      | remaining' + 1 =>
          generateRetryAux test ops pop gid remaining' (ops.generate gid) r.2 (n + 1)

/-- The regenerate-retry loop started with `num_retries = 0`. -/
def generateRetryLoop (test : UTest α σ) (ops : GenomeOps α) (pop : Population α σ)
    (gid : Nat) (maxRetries : Int) (cand : Genome α) (arch : Finset σ) :
    Genome α × Finset σ × Nat :=
  generateRetryAux test ops pop gid maxRetries.toNat cand arch 0

/-- Observables of one parent's pass through `reproduce`:
`mutRetries` is `num_retries` after the mutate-retry loop, `regenEntered`
records whether the regenerate fallback branch was taken, `finalRetries` is
the value of `num_retries` at the admission check
(`if num_retries < self.config.max_retries`), `admitted` whether the child
was added, and `child` the admitted child genome. -/
structure ReproStats (α : Type) where
  mutRetries : Nat
  regenEntered : Bool
  finalRetries : Nat
  admitted : Bool
  child : Option (Genome α)
deriving DecidableEq, Repr

/-- The body of `reproduce` for one `parent_id` of `to_reproduce`:
mutate the parent into `child_id`, run the mutate-retry loop, on exhaustion
(`num_retries == max_retries`) run the regenerate fallback, and admit the
candidate into `genomes` and `to_evaluate` when the final counter is strictly
below `max_retries`. -/
def reproduceOne (test : UTest α σ) (ops : GenomeOps α) (maxRetries : Int)
    (pop : Population α σ) (arch : Finset σ) (parentId : Nat)
    (parentGenome : Genome α) (childId : Nat) :
    Population α σ × Finset σ × ReproStats α :=
  let child0 := ops.mutate parentGenome childId
  let m := mutateRetryLoop test ops pop parentId childId maxRetries child0 arch
  let fb :=
    if (m.2.2 : Int) = maxRetries then
      (generateRetryLoop test ops pop childId maxRetries m.1 m.2.1, true)
    else (m, false)
  let cand := fb.1.1
  let arch' := fb.1.2.1
  let nF := fb.1.2.2
  if (nF : Int) < maxRetries then
    ({ pop with genomes := dinsert cand.genome_id cand pop.genomes,
                to_evaluate := insert cand.genome_id pop.to_evaluate },
     arch', ⟨m.2.2, fb.2, nF, true, some cand⟩)
  else
    (pop, arch', ⟨m.2.2, fb.2, nF, false, none⟩)

/-- The `for parent_id in population.to_reproduce` loop of `reproduce`.
`nid` is the framework genome-id counter (`self.next_genome_id`, fresh per
child).  A parent id absent from `genomes` raises `KeyError` in the source;
the error aborts the fold (the partially mutated population of the Python
exception path is not observed by any property below). -/
def reproduceList (test : UTest α σ) (ops : GenomeOps α) (maxRetries : Int) :
    List Nat → Population α σ → Finset σ → Nat →
    Except PyError (Population α σ × Finset σ × Nat × List (ReproStats α))
  | [], pop, arch, nid => .ok (pop, arch, nid, [])
  | parentId :: rest, pop, arch, nid =>
    match dlookup parentId pop.genomes with
    | none => .error .keyError
    | some parentGenome =>
      let r := reproduceOne test ops maxRetries pop arch parentId parentGenome nid
      match reproduceList test ops maxRetries rest r.1 r.2.1 (nid + 1) with
      | .error e => .error e
      | .ok (pop', arch', nid', stats) => .ok (pop', arch', nid', r.2.2 :: stats)

/-- `UniqueReproducer.reproduce`: asserts the archive is attached, processes
every parent, then writes `len(self._archive)` into the logging data.
`savedArchive` is updated in lockstep exactly when it holds the same set as
`self._archive` did on entry (Python aliasing established by attach). -/
def reproduce [DecidableEq σ] (cfg : UniqueReproducerConfig α σ) (ops : GenomeOps α)
    (st : ReproducerState σ) (pop : Population α σ) :
    Except PyError (ReproducerState σ × Population α σ × List (ReproStats α)) :=
  match st.archive with
  | none => .error .assertionError
  | some arch =>
    match reproduceList cfg.uniqueness_test ops cfg.max_retries pop.to_reproduce pop arch st.nextId with
    | .error e => .error e
    | .ok (pop1, arch1, nid1, stats) =>
      .ok (⟨some arch1, nid1⟩,
           { pop1 with
              loggingUnique := some arch1.card,
              savedArchive :=
                if pop.savedArchive = some arch then some arch1 else pop1.savedArchive },
           stats)

/-- The generic initialisation loop of `initialise_population`
(`for i in range(num_to_generate)`): allocate a fresh id, generate a genome,
run the regenerate-retry loop, then unconditionally admit the final genome
into `genomes` and `to_evaluate`. -/
def initialiseSlots (test : UTest α σ) (ops : GenomeOps α) (maxRetries : Int) :
    Nat → Population α σ → Finset σ → Nat → Population α σ × Finset σ × Nat
  | 0, pop, arch, nid => (pop, arch, nid)
  | n + 1, pop, arch, nid =>
    let g0 := ops.generate nid
    let r := generateRetryLoop test ops pop nid maxRetries g0 arch
    initialiseSlots test ops maxRetries n
      { pop with genomes := dinsert nid r.1 pop.genomes,
                 to_evaluate := insert nid pop.to_evaluate }
      r.2.1 (nid + 1)

/-- `UniqueReproducer.initialise_population`: the entry assertion
`assert self._archive is not None` fires before `_initialise_from_checkpoint`
runs; then either the custom `initialisation_f` takes over entirely, or the
generic path generates `population_size - len(to_evaluate)` genomes.  On the
generic path the attach has just aliased `savedArchive` to `self._archive`,
so both end as the grown archive. -/
def initialise_population (cfg : UniqueReproducerConfig α σ) (ops : GenomeOps α)
    (st : ReproducerState σ) (pop : Population α σ) :
    Except PyError (ReproducerState σ × Population α σ) :=
  match st.archive with
  | none => .error .assertionError
  | some _ =>
    let c := initialiseFromCheckpoint st pop
    match cfg.initialisation_f with
    | some f => .ok (f c.1 c.2)
    | none =>
      let arch0 := (attachOrCreate pop).1
      let n := c.2.population_size - c.2.to_evaluate.card
      let r := initialiseSlots cfg.uniqueness_test ops cfg.max_retries n c.2 arch0 c.1.nextId
      .ok (⟨some r.2.1, r.2.2⟩, { r.1 with savedArchive := some r.2.1 })

/-- One run-level call on the reproducer (spec section 8 quantifies over
sequences of these). -/
inductive ReproducerOp where
  | initialiseOp
  | reproduceOp
deriving DecidableEq, Repr

/-- The joint state of one run: the reproducer plus the population it acts on. -/
structure RunState (α σ : Type) where
  st : ReproducerState σ
  pop : Population α σ

/-- Execute one call.  The asserts fire before any mutation, so an error
leaves the state unchanged; the `KeyError` path of `reproduce` is likewise
rendered as the unchanged pre-state (before the raise the only mutations are
archive insertions by the test, so this choice only understates growth). -/
def runOp [DecidableEq σ] (cfg : UniqueReproducerConfig α σ) (ops : GenomeOps α)
    (s : RunState α σ) : ReproducerOp → RunState α σ
  | .initialiseOp =>
    match initialise_population cfg ops s.st s.pop with
    | .ok (st', pop') => ⟨st', pop'⟩
    | .error _ => s
  | .reproduceOp =>
    match reproduce cfg ops s.st s.pop with
    | .ok (st', pop', _) => ⟨st', pop'⟩
    | .error _ => s

/-- Execute a sequence of calls. -/
def runOps [DecidableEq σ] (cfg : UniqueReproducerConfig α σ) (ops : GenomeOps α) :
    RunState α σ → List ReproducerOp → RunState α σ
  | s, [] => s
  | s, op :: rest => runOps cfg ops (runOp cfg ops s op) rest

/-- `archive.size()` as observable on a run state (0 before attach). -/
def archiveSize (s : RunState α σ) : Nat :=
  match s.st.archive with
  | none => 0
  | some a => a.card

/-- The aliasing invariant every run reachable through attach satisfies:
whenever `self._archive` is set, the persisted entry holds the same set. -/
def Coherent (s : RunState α σ) : Prop :=
  ∀ a : Finset σ, s.st.archive = some a → s.pop.savedArchive = some a

/-- The uniqueness-test contract of spec section 4.2: side-effect-free on
rejection, at most one insertion on acceptance. -/
def TestContract (test : UTest α σ) : Prop :=
  ∀ (a : Finset σ) (g : Genome α) (p : Population α σ),
    ((test a g p).1 = false → (test a g p).2 = a) ∧
    ((test a g p).1 = true → a ⊆ (test a g p).2 ∧ (test a g p).2.card ≤ a.card + 1)

/-- The children the always-accept fast path is expected to admit: for the
i-th parent, its genome (looked up in the pre-call population) mutated into
the i-th fresh id. -/
def expectedChildren (ops : GenomeOps α) (genomes : List (Nat × Genome α)) :
    List Nat → Nat → List (Nat × Genome α)
  | [], _ => []
  | p :: rest, nid =>
    match dlookup p genomes with
    | some g => (nid, ops.mutate g nid) :: expectedChildren ops genomes rest (nid + 1)
    | none => []

/-- Concrete genome collaborators for evaluating the embedding: mutation
stamps the new id and increments the payload (so the payload records the
mutation depth); generation yields payload 0. -/
def natOps : GenomeOps Nat :=
  ⟨fun g i => ⟨i, g.data + 1⟩, fun i => ⟨i, 0⟩⟩

/-- A uniqueness test that accepts every candidate and never touches the archive. -/
def acceptAllTest : UTest Nat Nat := fun a _ _ => (true, a)

/-- A uniqueness test that rejects every candidate and never touches the archive. -/
def rejectAllTest : UTest Nat Nat := fun a _ _ => (false, a)

/-- A uniqueness test that accepts every candidate and records its payload. -/
def recordingTest : UTest Nat Nat := fun a g _ => (true, insert g.data a)

/-- A uniqueness test that accepts exactly the candidates of payload at least 2. -/
def escalatingTest : UTest Nat Nat := fun a g _ => (decide (2 ≤ g.data), a)

/-- An empty population over `Nat` payloads and signatures. -/
def emptyPop : Population Nat Nat := ⟨[], ∅, [], 0, none, none⟩

/-- A population carrying a persisted archive of size 2 under the key. -/
def popSaved : Population Nat Nat := ⟨[], ∅, [], 0, some {1, 2}, none⟩

end Erpy

namespace Erpy

/- Dictionary (association list) lemmas. -/

theorem dlookup_dinsert_self (k : Nat) (v : Genome α) (l : List (Nat × Genome α)) :
    dlookup k (dinsert k v l) = some v := by
  induction l with
  | nil => simp [dinsert, dlookup]
  | cons hd t ih =>
    obtain ⟨k', v'⟩ := hd
    by_cases h : k = k'
    · simp [dinsert, dlookup, h]
    · simp [dinsert, dlookup, h, ih]

theorem dlookup_dinsert_ne (k q : Nat) (hne : q ≠ k) (v : Genome α)
    (l : List (Nat × Genome α)) :
    dlookup q (dinsert k v l) = dlookup q l := by
  induction l with
  | nil => simp [dinsert, dlookup, hne]
  | cons hd t ih =>
    obtain ⟨k', v'⟩ := hd
    by_cases h : k = k'
    · subst h
      simp [dinsert, dlookup, hne]
    · by_cases h2 : q = k'
      · simp [dinsert, dlookup, h, h2]
      · simp [dinsert, dlookup, h, h2, ih]

/-- A fresh-key dict assignment appends the new binding. -/
theorem dinsert_eq_append (k : Nat) (v : Genome α) (l : List (Nat × Genome α))
    (h : ∀ p ∈ l, p.1 ≠ k) :
    dinsert k v l = l ++ [(k, v)] := by
  induction l with
  | nil => simp [dinsert]
  | cons hd t ih =>
    obtain ⟨k', v'⟩ := hd
    have hk : k ≠ k' := fun hkk => h (k', v') (by simp) (by simp [hkk.symm])
    simp [dinsert, hk]
    exact ih fun p hp => h p (by simp [hp])

/-- A successful lookup exhibits a binding of the list. -/
theorem dlookup_mem (k : Nat) (v : Genome α) (l : List (Nat × Genome α))
    (h : dlookup k l = some v) : (k, v) ∈ l := by
  induction l with
  | nil => simp [dlookup] at h
  | cons hd t ih =>
    obtain ⟨k', v'⟩ := hd
    by_cases hk : k = k'
    · subst hk
      simp [dlookup] at h
      simp [h]
    · simp [dlookup, hk] at h
      simp [ih h]

/- C3 -/

/-- C3: a freshly constructed UniqueReproducer has no archive, and calling
initialise_population on it fails the entry assertion for every
configuration, collaborator set and population, before
_initialise_from_checkpoint could attach or create the archive and before
either initialisation path could run. -/
theorem fresh_reproducer_initialise_asserts {α σ : Type}
    (cfg : UniqueReproducerConfig α σ) (ops : GenomeOps α) (n0 : Nat)
    (pop : Population α σ) :
    (mkUniqueReproducer (σ := σ) n0).archive = none ∧
    initialise_population cfg ops (mkUniqueReproducer n0) pop =
      .error .assertionError :=
  ⟨rfl, rfl⟩

/- C5 -/

/-- C5: attaching the archive through the fixed persistence key is
resume-safe and idempotent: a persisted archive is bound unchanged (so its
size k is exactly the size observed right after attach) with the population
untouched; a missing key creates the empty archive and registers it under
the key; and attaching twice within one run equals attaching once, never
producing a second empty archive. -/
theorem attach_or_create_spec {α σ : Type} :
    (∀ (st : ReproducerState σ) (pop : Population α σ) (a : Finset σ),
      pop.savedArchive = some a →
        (initialiseFromCheckpoint st pop).1.archive = some a ∧
        (initialiseFromCheckpoint st pop).2 = pop) ∧
    (∀ (st : ReproducerState σ) (pop : Population α σ),
      pop.savedArchive = none →
        (initialiseFromCheckpoint st pop).1.archive = some (∅ : Finset σ) ∧
        (initialiseFromCheckpoint st pop).2.savedArchive = some (∅ : Finset σ)) ∧
    (∀ (st : ReproducerState σ) (pop : Population α σ),
      initialiseFromCheckpoint (initialiseFromCheckpoint st pop).1
          (initialiseFromCheckpoint st pop).2 =
        initialiseFromCheckpoint st pop) := by
  refine ⟨?_, ?_, ?_⟩
  · intro st pop a h
    simp [initialiseFromCheckpoint, attachOrCreate, h]
  · intro st pop h
    simp [initialiseFromCheckpoint, attachOrCreate, h]
  · intro st pop
    cases h : pop.savedArchive with
    | some a => simp [initialiseFromCheckpoint, attachOrCreate, h]
    | none => simp [initialiseFromCheckpoint, attachOrCreate, h]

/-- C5 witness: attaching against a population persisting an archive of size
2 binds exactly that archive and leaves the population unchanged. -/
theorem attach_or_create_spec_witness :
    (initialiseFromCheckpoint (mkUniqueReproducer 0) popSaved).1.archive =
      some ({1, 2} : Finset Nat) ∧
    (initialiseFromCheckpoint (mkUniqueReproducer 0) popSaved).2 = popSaved :=
  attach_or_create_spec.1 (mkUniqueReproducer 0) popSaved {1, 2} rfl

/- C7 -/

/-- C7 counterexample: max_retries = -1 is an invalid configuration per the
claim, yet constructing the dataclass with it succeeds (no exception). -/
theorem config_negative_retries_constructs :
    ((-1 : Int) < 0) ∧
    (mkUniqueReproducerConfig (α := Nat) (σ := Nat)
        (some acceptAllTest) (-1) none).isOk = true :=
  ⟨by decide, rfl⟩

/-- C7 amended: construction performs no validation of max_retries — it
succeeds for every value, including negative ones; only omitting the
required dataclass field uniqueness_test fails at construction time. -/
theorem config_construction_not_validated {α σ : Type} (t : UTest α σ) (mr : Int)
    (f : Option (ReproducerState σ → Population α σ → ReproducerState σ × Population α σ)) :
    mkUniqueReproducerConfig (some t) mr f = .ok ⟨t, mr, f⟩ ∧
    mkUniqueReproducerConfig (α := α) (σ := σ) none mr f = .error .typeError :=
  ⟨rfl, rfl⟩

/- C2 -/

/-- reproduceOne always takes one of exactly two shapes: admission of the
final candidate when the final retry counter is strictly below max_retries,
and an unchanged population otherwise. -/
theorem reproduceOne_spec (test : UTest α σ) (ops : GenomeOps α)
    (maxRetries : Int) (pop : Population α σ) (arch : Finset σ)
    (parentId : Nat) (parentGenome : Genome α) (childId : Nat) :
    ∃ (cand : Genome α) (arch' : Finset σ) (mr fr : Nat) (re : Bool),
      reproduceOne test ops maxRetries pop arch parentId parentGenome childId =
        if (fr : Int) < maxRetries then
          ({ pop with genomes := dinsert cand.genome_id cand pop.genomes,
                      to_evaluate := insert cand.genome_id pop.to_evaluate },
           arch', ⟨mr, re, fr, true, some cand⟩)
        else (pop, arch', ⟨mr, re, fr, false, none⟩) := by
  unfold reproduceOne
  exact ⟨_, _, _, _, _, rfl⟩

/-- C2: for every parent processed by reproduce, the child is admitted into
genomes and to_evaluate if and only if the final retry counter of whichever
loop last ran is strictly below max_retries; when the budgets are exhausted
the parent contributes no child — the population is returned unchanged and
no exception is raised (the operation is total). -/
theorem reproduce_admission_rule (test : UTest α σ) (ops : GenomeOps α)
    (maxRetries : Int) (pop : Population α σ) (arch : Finset σ)
    (parentId : Nat) (parentGenome : Genome α) (childId : Nat) :
    ((reproduceOne test ops maxRetries pop arch parentId parentGenome childId).2.2.admitted = true ↔
      (((reproduceOne test ops maxRetries pop arch parentId parentGenome childId).2.2.finalRetries : Int) < maxRetries)) ∧
    ((reproduceOne test ops maxRetries pop arch parentId parentGenome childId).2.2.admitted = true →
      ∃ c : Genome α,
        (reproduceOne test ops maxRetries pop arch parentId parentGenome childId).2.2.child = some c ∧
        dlookup c.genome_id
          (reproduceOne test ops maxRetries pop arch parentId parentGenome childId).1.genomes = some c ∧
        c.genome_id ∈
          (reproduceOne test ops maxRetries pop arch parentId parentGenome childId).1.to_evaluate) ∧
    ((reproduceOne test ops maxRetries pop arch parentId parentGenome childId).2.2.admitted = false →
      (reproduceOne test ops maxRetries pop arch parentId parentGenome childId).1 = pop) := by
  obtain ⟨cand, arch', mr, fr, re, hspec⟩ :=
    reproduceOne_spec test ops maxRetries pop arch parentId parentGenome childId
  by_cases h : (fr : Int) < maxRetries
  · rw [hspec, if_pos h]
    refine ⟨⟨fun _ => h, fun _ => rfl⟩, fun _ => ⟨cand, rfl, ?_, ?_⟩, fun hcon => by simp at hcon⟩
    · exact dlookup_dinsert_self cand.genome_id cand pop.genomes
    · exact Finset.mem_insert_self cand.genome_id pop.to_evaluate
  · rw [hspec, if_neg h]
    exact ⟨⟨fun hcon => by simp at hcon, fun hlt => absurd hlt h⟩,
      fun hcon => by simp at hcon, fun _ => rfl⟩

/-- C2 witness: a concrete exhausted parent (always-rejecting test,
max_retries = 1) is dropped with the population unchanged, and the
admission-iff holds at that input. -/
theorem reproduce_admission_rule_witness :
    ((reproduceOne rejectAllTest natOps 1 emptyPop ∅ 0 ⟨0, 0⟩ 1).2.2.admitted = true ↔
      (((reproduceOne rejectAllTest natOps 1 emptyPop ∅ 0 ⟨0, 0⟩ 1).2.2.finalRetries : Int) < 1)) ∧
    ((reproduceOne rejectAllTest natOps 1 emptyPop ∅ 0 ⟨0, 0⟩ 1).2.2.admitted = false →
      (reproduceOne rejectAllTest natOps 1 emptyPop ∅ 0 ⟨0, 0⟩ 1).1 = emptyPop) :=
  ⟨(reproduce_admission_rule rejectAllTest natOps 1 emptyPop ∅ 0 ⟨0, 0⟩ 1).1,
   (reproduce_admission_rule rejectAllTest natOps 1 emptyPop ∅ 0 ⟨0, 0⟩ 1).2.2⟩

/- C10 -/

/-- With max_retries = 0 one parent's pass leaves the population unchanged:
both loops exit immediately with counter 0 and the admission guard 0 < 0
fails, whatever the uniqueness test answers. -/
theorem reproduceOne_zero_max (test : UTest α σ) (ops : GenomeOps α)
    (pop : Population α σ) (arch : Finset σ) (parentId : Nat)
    (parentGenome : Genome α) (childId : Nat) :
    (reproduceOne test ops 0 pop arch parentId parentGenome childId).1 = pop ∧
    (reproduceOne test ops 0 pop arch parentId parentGenome childId).2.2 =
      ⟨0, true, 0, false, none⟩ := by
  simp [reproduceOne, mutateRetryLoop, mutateRetryAux, generateRetryLoop,
    generateRetryAux]

/-- With max_retries = 0 the whole parent loop returns the population
unchanged and marks every parent as not admitted. -/
theorem reproduceList_zero_max (test : UTest α σ) (ops : GenomeOps α)
    (parents : List Nat) :
    ∀ (pop : Population α σ) (arch : Finset σ) (nid : Nat),
      (∀ p ∈ parents, (dlookup p pop.genomes).isSome) →
      ∃ arch' stats,
        reproduceList test ops 0 parents pop arch nid =
          .ok (pop, arch', nid + parents.length, stats) ∧
        stats.length = parents.length ∧
        ∀ s ∈ stats, s = (⟨0, true, 0, false, none⟩ : ReproStats α) := by
  induction parents with
  | nil =>
    intro pop arch nid _
    exact ⟨arch, [], by simp [reproduceList], by simp, by simp⟩
  | cons p rest ih =>
    intro pop arch nid hpar
    obtain ⟨g, hg⟩ := Option.isSome_iff_exists.mp (hpar p (by simp))
    obtain ⟨h1, h2⟩ := reproduceOne_zero_max test ops pop arch p g nid
    obtain ⟨arch', stats, hrec, hlen, hstats⟩ :=
      ih (reproduceOne test ops 0 pop arch p g nid).1
        (reproduceOne test ops 0 pop arch p g nid).2.1 (nid + 1)
        (by rw [h1]; intro q hq; exact hpar q (by simp [hq]))
    refine ⟨arch', (reproduceOne test ops 0 pop arch p g nid).2.2 :: stats, ?_, ?_, ?_⟩
    · have harith : nid + 1 + rest.length = nid + (p :: rest).length := by
        simp; omega
      rw [h1] at hrec
      simp only [reproduceList, hg, h1, hrec, harith]
    · simp [hlen]
    · intro s hs
      rcases List.mem_cons.mp hs with h | h
      · rw [h, h2]
      · exact hstats s h

/-- C10: with max_retries = 0, reproduce admits no child for any parent,
regardless of the uniqueness test — the admission guard requires the final
counter 0 to be strictly below max_retries 0 — and every parent's attempt is
silently dropped: genomes and to_evaluate are unchanged. -/
theorem zero_retries_admits_nothing {α σ : Type} [DecidableEq σ]
    (cfg : UniqueReproducerConfig α σ) (ops : GenomeOps α)
    (st : ReproducerState σ) (pop : Population α σ) (arch : Finset σ)
    (hmax : cfg.max_retries = 0)
    (harch : st.archive = some arch)
    (hpar : ∀ p ∈ pop.to_reproduce, (dlookup p pop.genomes).isSome) :
    ∃ st' pop' stats,
      reproduce cfg ops st pop = .ok (st', pop', stats) ∧
      pop'.genomes = pop.genomes ∧
      pop'.to_evaluate = pop.to_evaluate ∧
      stats.length = pop.to_reproduce.length ∧
      ∀ s ∈ stats, s.admitted = false := by
  obtain ⟨arch', stats, hrec, hlen, hstats⟩ :=
    reproduceList_zero_max cfg.uniqueness_test ops pop.to_reproduce pop arch st.nextId hpar
  rw [← hmax] at hrec
  have hred : reproduce cfg ops st pop = .ok
      (⟨some arch', st.nextId + pop.to_reproduce.length⟩,
       { pop with
          loggingUnique := some arch'.card,
          savedArchive :=
            if pop.savedArchive = some arch then some arch' else pop.savedArchive },
       stats) := by
    simp only [reproduce, harch, hrec]
  exact ⟨_, _, _, hred, rfl, rfl, hlen, fun s hs => by rw [hstats s hs]⟩

/-- C10 witness: a concrete always-accepting test with max_retries = 0 still
admits nothing. -/
theorem zero_retries_admits_nothing_witness :
    ∃ st' pop' stats,
      reproduce ⟨acceptAllTest, 0, none⟩ natOps ⟨some ∅, 5⟩
          ⟨[(0, ⟨0, 0⟩)], ∅, [0], 1, none, none⟩ = .ok (st', pop', stats) ∧
      pop'.genomes = [(0, ⟨0, 0⟩)] ∧
      pop'.to_evaluate = ∅ ∧
      stats.length = 1 ∧
      ∀ s ∈ stats, s.admitted = false := by
  obtain ⟨st', pop', stats, h⟩ :=
    zero_retries_admits_nothing ⟨acceptAllTest, 0, none⟩ natOps ⟨some ∅, 5⟩
      ⟨[(0, ⟨0, 0⟩)], ∅, [0], 1, none, none⟩ ∅ rfl rfl (by decide)
  exact ⟨st', pop', stats, h⟩

/- C9 -/

/-- The test contract implies the archive only grows across a test call. -/
theorem testContract_sub {test : UTest α σ} (hc : TestContract test)
    (a : Finset σ) (g : Genome α) (p : Population α σ) :
    a ⊆ (test a g p).2 := by
  cases htest : (test a g p).1 with
  | false =>
    rw [(hc a g p).1 htest]
  | true => exact ((hc a g p).2 htest).1

/-- The mutate-retry loop never shrinks the archive. -/
theorem mutateRetryAux_archive_sub {test : UTest α σ} (hc : TestContract test)
    (ops : GenomeOps α) (pop : Population α σ) (parentId childId : Nat) :
    ∀ (remaining : Nat) (cand : Genome α) (arch : Finset σ) (n : Nat),
      arch ⊆ (mutateRetryAux test ops pop parentId childId remaining cand arch n).2.1 := by
  intro remaining
  induction remaining with
  | zero =>
    intro cand arch n
    simp [mutateRetryAux]
    exact testContract_sub hc arch cand pop
  | succ m ih =>
    intro cand arch n
    rw [mutateRetryAux]
    cases htest : (test arch cand pop).1 with
    | true =>
      simp only [htest, if_true]
      exact testContract_sub hc arch cand pop
    | false =>
      simp only [htest, Bool.false_eq_true, if_false]
      exact Finset.Subset.trans (testContract_sub hc arch cand pop)
        (ih (ops.mutate { cand with genome_id := parentId } childId)
          (test arch cand pop).2 (n + 1))

/-- The regenerate-retry loop never shrinks the archive. -/
theorem generateRetryAux_archive_sub {test : UTest α σ} (hc : TestContract test)
    (ops : GenomeOps α) (pop : Population α σ) (gid : Nat) :
    ∀ (remaining : Nat) (cand : Genome α) (arch : Finset σ) (n : Nat),
      arch ⊆ (generateRetryAux test ops pop gid remaining cand arch n).2.1 := by
  intro remaining
  induction remaining with
  | zero =>
    intro cand arch n
    simp [generateRetryAux]
    exact testContract_sub hc arch cand pop
  | succ m ih =>
    intro cand arch n
    rw [generateRetryAux]
    cases htest : (test arch cand pop).1 with
    | true =>
      simp only [htest, if_true]
      exact testContract_sub hc arch cand pop
    | false =>
      simp only [htest, Bool.false_eq_true, if_false]
      exact Finset.Subset.trans (testContract_sub hc arch cand pop)
        (ih (ops.generate gid) (test arch cand pop).2 (n + 1))

/-- One parent's pass never shrinks the archive. -/
theorem reproduceOne_archive_sub {test : UTest α σ} (hc : TestContract test)
    (ops : GenomeOps α) (maxRetries : Int) (pop : Population α σ)
    (arch : Finset σ) (parentId : Nat) (parentGenome : Genome α) (childId : Nat) :
    arch ⊆ (reproduceOne test ops maxRetries pop arch parentId parentGenome childId).2.1 := by
  have h1 : arch ⊆ (mutateRetryLoop test ops pop parentId childId maxRetries
      (ops.mutate parentGenome childId) arch).2.1 :=
    mutateRetryAux_archive_sub hc ops pop parentId childId _ _ _ _
  have h2 : (mutateRetryLoop test ops pop parentId childId maxRetries
      (ops.mutate parentGenome childId) arch).2.1 ⊆
      (generateRetryLoop test ops pop childId maxRetries
        (mutateRetryLoop test ops pop parentId childId maxRetries
          (ops.mutate parentGenome childId) arch).1
        (mutateRetryLoop test ops pop parentId childId maxRetries
          (ops.mutate parentGenome childId) arch).2.1).2.1 :=
    generateRetryAux_archive_sub hc ops pop childId _ _ _ _
  simp only [reproduceOne]
  generalize hm : mutateRetryLoop test ops pop parentId childId maxRetries
      (ops.mutate parentGenome childId) arch = m at h1 h2 ⊢
  generalize hg : generateRetryLoop test ops pop childId maxRetries m.1 m.2.1 = gr at h2 ⊢
  by_cases heq : ((m.2.2 : Int) = maxRetries)
  · by_cases hlt : ((gr.2.2 : Int) < maxRetries)
    · simp [heq, hlt]
      exact h1.trans h2
    · simp [heq, hlt]
      exact h1.trans h2
  · by_cases hlt : ((m.2.2 : Int) < maxRetries)
    · simp [heq, hlt]
      exact h1
    · simp [heq, hlt]
      exact h1

/-- The whole parent loop never shrinks the archive. -/
theorem reproduceList_archive_sub {test : UTest α σ} (hc : TestContract test)
    (ops : GenomeOps α) (maxRetries : Int) (parents : List Nat) :
    ∀ (pop : Population α σ) (arch : Finset σ) (nid : Nat)
      (res : Population α σ × Finset σ × Nat × List (ReproStats α)),
      reproduceList test ops maxRetries parents pop arch nid = .ok res →
      arch ⊆ res.2.1 := by
  induction parents with
  | nil =>
    intro pop arch nid res h
    simp only [reproduceList] at h
    cases h
    exact Finset.Subset.refl arch
  | cons p rest ih =>
    intro pop arch nid res h
    simp only [reproduceList] at h
    cases hlk : dlookup p pop.genomes with
    | none =>
      rw [hlk] at h
      exact Except.noConfusion h
    | some g =>
      simp only [hlk] at h
      cases hrec : reproduceList test ops maxRetries rest
          (reproduceOne test ops maxRetries pop arch p g nid).1
          (reproduceOne test ops maxRetries pop arch p g nid).2.1 (nid + 1) with
      | error e =>
        rw [hrec] at h
        exact Except.noConfusion h
      | ok res' =>
        obtain ⟨pop1, arch1, nid1, stats1⟩ := res'
        rw [hrec] at h
        cases h
        exact Finset.Subset.trans
          (reproduceOne_archive_sub hc ops maxRetries pop arch p g nid)
          (ih (reproduceOne test ops maxRetries pop arch p g nid).1
            (reproduceOne test ops maxRetries pop arch p g nid).2.1 (nid + 1)
            (pop1, arch1, nid1, stats1) hrec)

/-- The generic initialisation loop never shrinks the archive. -/
theorem initialiseSlots_archive_sub {test : UTest α σ} (hc : TestContract test)
    (ops : GenomeOps α) (maxRetries : Int) (n : Nat) :
    ∀ (pop : Population α σ) (arch : Finset σ) (nid : Nat),
      arch ⊆ (initialiseSlots test ops maxRetries n pop arch nid).2.1 := by
  induction n with
  | zero =>
    intro pop arch nid
    simp [initialiseSlots]
  | succ m ih =>
    intro pop arch nid
    rw [initialiseSlots]
    exact Finset.Subset.trans
      (generateRetryAux_archive_sub hc ops pop nid maxRetries.toNat
        (ops.generate nid) arch 0)
      (ih _ _ _)

/-- One run-level call preserves coherence and never shrinks the archive. -/
theorem runOp_mono {α σ : Type} [DecidableEq σ]
    (cfg : UniqueReproducerConfig α σ) (ops : GenomeOps α)
    (hf : cfg.initialisation_f = none)
    (hc : TestContract cfg.uniqueness_test)
    (s : RunState α σ) (op : ReproducerOp) (hcoh : Coherent s) :
    archiveSize s ≤ archiveSize (runOp cfg ops s op) ∧
    Coherent (runOp cfg ops s op) := by
  cases op with
  | initialiseOp =>
    cases harch : s.st.archive with
    | none =>
      have hrun : runOp cfg ops s .initialiseOp = s := by
        simp [runOp, initialise_population, harch]
      rw [hrun]
      exact ⟨le_refl _, hcoh⟩
    | some a =>
      have hsaved : s.pop.savedArchive = some a := hcoh a harch
      have hsub : a ⊆ (initialiseSlots cfg.uniqueness_test ops cfg.max_retries
          (s.pop.population_size - s.pop.to_evaluate.card) s.pop a s.st.nextId).2.1 :=
        initialiseSlots_archive_sub hc ops cfg.max_retries _ s.pop a s.st.nextId
      set r := initialiseSlots cfg.uniqueness_test ops cfg.max_retries
          (s.pop.population_size - s.pop.to_evaluate.card) s.pop a s.st.nextId with hrdef
      have hred : initialise_population cfg ops s.st s.pop = .ok
          (⟨some r.2.1, r.2.2⟩, { r.1 with savedArchive := some r.2.1 }) := by
        rw [hrdef]
        simp only [initialise_population, harch, hf, initialiseFromCheckpoint,
          attachOrCreate, hsaved]
      have hrun : runOp cfg ops s .initialiseOp =
          ⟨⟨some r.2.1, r.2.2⟩, { r.1 with savedArchive := some r.2.1 }⟩ := by
        simp only [runOp, hred]
      rw [hrun]
      refine ⟨?_, ?_⟩
      · simp only [archiveSize, harch]
        exact Finset.card_le_card hsub
      · intro b hb
        exact hb
  | reproduceOp =>
    cases harch : s.st.archive with
    | none =>
      have hrun : runOp cfg ops s .reproduceOp = s := by
        simp [runOp, reproduce, harch]
      rw [hrun]
      exact ⟨le_refl _, hcoh⟩
    | some a =>
      cases hrec : reproduceList cfg.uniqueness_test ops cfg.max_retries
          s.pop.to_reproduce s.pop a s.st.nextId with
      | error e =>
        have hrun : runOp cfg ops s .reproduceOp = s := by
          simp [runOp, reproduce, harch, hrec]
        rw [hrun]
        exact ⟨le_refl _, hcoh⟩
      | ok res =>
        obtain ⟨pop1, arch1, nid1, stats⟩ := res
        have hsub : a ⊆ arch1 :=
          reproduceList_archive_sub hc ops cfg.max_retries s.pop.to_reproduce
            s.pop a s.st.nextId (pop1, arch1, nid1, stats) hrec
        have hsaved : s.pop.savedArchive = some a := hcoh a harch
        have hrun : runOp cfg ops s .reproduceOp =
            ⟨⟨some arch1, nid1⟩,
             { pop1 with
                loggingUnique := some arch1.card,
                savedArchive := some arch1 }⟩ := by
          simp [runOp, reproduce, harch, hrec, hsaved]
        rw [hrun]
        refine ⟨?_, ?_⟩
        · simp only [archiveSize, harch]
          exact Finset.card_le_card hsub
        · intro b hb
          exact hb

/-- A run-level call sequence preserves coherence and never shrinks the
archive. -/
theorem runOps_mono {α σ : Type} [DecidableEq σ]
    (cfg : UniqueReproducerConfig α σ) (ops : GenomeOps α)
    (hf : cfg.initialisation_f = none)
    (hc : TestContract cfg.uniqueness_test) (l : List ReproducerOp) :
    ∀ s : RunState α σ, Coherent s →
      archiveSize s ≤ archiveSize (runOps cfg ops s l) ∧
      Coherent (runOps cfg ops s l) := by
  induction l with
  | nil => exact fun s h => ⟨le_refl _, h⟩
  | cons op rest ih =>
    intro s h
    obtain ⟨h1, h2⟩ := runOp_mono cfg ops hf hc s op h
    obtain ⟨h3, h4⟩ := ih (runOp cfg ops s op) h2
    exact ⟨le_trans h1 h3, h4⟩

/-- C9: archive monotonicity — along every sequence of initialise_population
and reproduce calls within a run (generic initialisation path, starting from
a state whose persisted entry holds the attached archive, with uniqueness
tests obeying the contract of inserting at most one entry on acceptance and
nothing on rejection), the archive's size is non-decreasing: the reproducer
itself never removes or replaces archive entries. -/
theorem archive_monotone {α σ : Type} [DecidableEq σ]
    (cfg : UniqueReproducerConfig α σ) (ops : GenomeOps α)
    (l : List ReproducerOp) (s : RunState α σ)
    (hf : cfg.initialisation_f = none)
    (hc : TestContract cfg.uniqueness_test)
    (hcoh : Coherent s) :
    archiveSize s ≤ archiveSize (runOps cfg ops s l) :=
  (runOps_mono cfg ops hf hc l s hcoh).1

/-- The recording test satisfies the uniqueness-test contract. -/
theorem recordingTest_contract : TestContract recordingTest := by
  intro a g p
  exact ⟨fun h => Bool.noConfusion h,
    fun _ => ⟨Finset.subset_insert _ _, Finset.card_insert_le _ _⟩⟩

/-- C9 witness: a concrete run (one reproduce, one initialise) from an
attached archive of size 1 does not shrink it. -/
theorem archive_monotone_witness :
    archiveSize
        (⟨⟨some {9}, 1⟩, ⟨[(0, ⟨0, 4⟩)], ∅, [0], 1, some {9}, none⟩⟩ :
          RunState Nat Nat) ≤
      archiveSize (runOps ⟨recordingTest, 3, none⟩ natOps
        ⟨⟨some {9}, 1⟩, ⟨[(0, ⟨0, 4⟩)], ∅, [0], 1, some {9}, none⟩⟩
        [.reproduceOp, .initialiseOp]) :=
  archive_monotone ⟨recordingTest, 3, none⟩ natOps [.reproduceOp, .initialiseOp]
    ⟨⟨some {9}, 1⟩, ⟨[(0, ⟨0, 4⟩)], ∅, [0], 1, some {9}, none⟩⟩ rfl
    recordingTest_contract (fun a h => h)

/- C4 -/

/-- C4 counterexample: with mutation that increments the payload (payload =
mutation depth) and a test accepting payload at least 2, the candidate that
the mutate-retry loop accepts after one retry is the mutation of the
previously rejected candidate (payload 2, obtained from the rejected
candidate relabelled to the parent id), not the re-mutation of the original
parent (which would have payload 1). -/
theorem mutate_retry_not_from_parent :
    (mutateRetryLoop escalatingTest natOps emptyPop 7 42 5
        (natOps.mutate ⟨7, 0⟩ 42) ∅).1 = natOps.mutate ⟨7, 1⟩ 42 ∧
    (mutateRetryLoop escalatingTest natOps emptyPop 7 42 5
        (natOps.mutate ⟨7, 0⟩ 42) ∅).1 ≠ natOps.mutate ⟨7, 0⟩ 42 ∧
    (mutateRetryLoop escalatingTest natOps emptyPop 7 42 5
        (natOps.mutate ⟨7, 0⟩ 42) ∅).2.2 = 1 := by
  decide

/-- C4 amended: on every retry after a rejection, the mutate-retry loop
produces the next candidate by mutating the previously rejected candidate
(after reassigning its genome_id to the parent id), not the original parent;
the new candidate carries the same candidate identity child_id on every
retry. -/
theorem mutate_retry_uses_previous_candidate (test : UTest α σ)
    (ops : GenomeOps α) (pop : Population α σ) (parentId childId : Nat)
    (remaining : Nat) (cand : Genome α) (arch : Finset σ) (n : Nat)
    (hrej : (test arch cand pop).1 = false)
    (hmut : ∀ g i, (ops.mutate g i).genome_id = i) :
    mutateRetryAux test ops pop parentId childId (remaining + 1) cand arch n =
      mutateRetryAux test ops pop parentId childId remaining
        (ops.mutate { cand with genome_id := parentId } childId)
        (test arch cand pop).2 (n + 1) ∧
    (ops.mutate { cand with genome_id := parentId } childId).genome_id =
      childId := by
  constructor
  · conv_lhs => rw [mutateRetryAux]
    simp only [hrej, Bool.false_eq_true, if_false]
  · exact hmut _ _

/-- C4 amended witness: the first retry of the concrete run above. -/
theorem mutate_retry_uses_previous_candidate_witness :
    mutateRetryAux escalatingTest natOps emptyPop 7 42 5 ⟨42, 1⟩ ∅ 0 =
      mutateRetryAux escalatingTest natOps emptyPop 7 42 4
        (natOps.mutate ⟨7, 1⟩ 42) (escalatingTest ∅ ⟨42, 1⟩ emptyPop).2 1 ∧
    (natOps.mutate ⟨7, 1⟩ 42).genome_id = 42 :=
  mutate_retry_uses_previous_candidate escalatingTest natOps emptyPop 7 42 4
    ⟨42, 1⟩ ∅ 0 (by decide) (fun _ _ => rfl)

/- C6 -/

/-- Against an always-rejecting test the mutate-retry loop spends its whole
fuel: the final counter is the starting counter plus the remaining budget. -/
theorem mutateRetryAux_reject_all (test : UTest α σ) (ops : GenomeOps α)
    (pop : Population α σ) (parentId childId : Nat)
    (hrej : ∀ a g p, (test a g p).1 = false) :
    ∀ (remaining : Nat) (cand : Genome α) (arch : Finset σ) (n : Nat),
      (mutateRetryAux test ops pop parentId childId remaining cand arch n).2.2 =
        n + remaining := by
  intro remaining
  induction remaining with
  | zero =>
    intro cand arch n
    simp [mutateRetryAux, hrej]
  | succ m ih =>
    intro cand arch n
    rw [mutateRetryAux]
    simp only [hrej, Bool.false_eq_true, if_false]
    rw [ih]
    omega

/-- Against an always-rejecting test the regenerate-retry loop spends its
whole fuel. -/
theorem generateRetryAux_reject_all (test : UTest α σ) (ops : GenomeOps α)
    (pop : Population α σ) (gid : Nat)
    (hrej : ∀ a g p, (test a g p).1 = false) :
    ∀ (remaining : Nat) (cand : Genome α) (arch : Finset σ) (n : Nat),
      (generateRetryAux test ops pop gid remaining cand arch n).2.2 =
        n + remaining := by
  intro remaining
  induction remaining with
  | zero =>
    intro cand arch n
    simp [generateRetryAux, hrej]
  | succ m ih =>
    intro cand arch n
    rw [generateRetryAux]
    simp only [hrej, Bool.false_eq_true, if_false]
    rw [ih]
    omega

/-- Against an always-rejecting test one parent's pass performs exactly R
mutate retries, enters the regenerate fallback, performs exactly R
regenerate retries, admits nothing and leaves the population unchanged. -/
theorem reproduceOne_reject_all (test : UTest α σ) (ops : GenomeOps α) (R : Nat)
    (pop : Population α σ) (arch : Finset σ) (parentId : Nat)
    (parentGenome : Genome α) (childId : Nat)
    (hrej : ∀ a g p, (test a g p).1 = false) :
    (reproduceOne test ops (R : Int) pop arch parentId parentGenome childId).1 = pop ∧
    (reproduceOne test ops (R : Int) pop arch parentId parentGenome childId).2.2 =
      ⟨R, true, R, false, none⟩ := by
  have hm := mutateRetryAux_reject_all test ops pop parentId childId hrej
  have hgen := generateRetryAux_reject_all test ops pop childId hrej
  refine ⟨?_, ?_⟩ <;>
    simp [reproduceOne, mutateRetryLoop, generateRetryLoop, hm, hgen]

/-- Against an always-rejecting test the whole parent loop leaves the
population unchanged and yields exhausted stats for every parent. -/
theorem reproduceList_reject_all (test : UTest α σ) (ops : GenomeOps α) (R : Nat)
    (hrej : ∀ a g p, (test a g p).1 = false) (parents : List Nat) :
    ∀ (pop : Population α σ) (arch : Finset σ) (nid : Nat),
      (∀ p ∈ parents, (dlookup p pop.genomes).isSome) →
      ∃ arch' stats,
        reproduceList test ops (R : Int) parents pop arch nid =
          .ok (pop, arch', nid + parents.length, stats) ∧
        stats.length = parents.length ∧
        ∀ s ∈ stats, s = (⟨R, true, R, false, none⟩ : ReproStats α) := by
  induction parents with
  | nil =>
    intro pop arch nid _
    exact ⟨arch, [], by simp [reproduceList], by simp, by simp⟩
  | cons p rest ih =>
    intro pop arch nid hpar
    obtain ⟨g, hg⟩ := Option.isSome_iff_exists.mp (hpar p (by simp))
    obtain ⟨h1, h2⟩ := reproduceOne_reject_all test ops R pop arch p g nid hrej
    obtain ⟨arch', stats, hrec, hlen, hstats⟩ :=
      ih (reproduceOne test ops (R : Int) pop arch p g nid).1
        (reproduceOne test ops (R : Int) pop arch p g nid).2.1 (nid + 1)
        (by rw [h1]; intro q hq; exact hpar q (by simp [hq]))
    refine ⟨arch', (reproduceOne test ops (R : Int) pop arch p g nid).2.2 :: stats,
      ?_, ?_, ?_⟩
    · have harith : nid + 1 + rest.length = nid + (p :: rest).length := by
        simp; omega
      rw [h1] at hrec
      simp only [reproduceList, hg, h1, hrec, harith]
    · simp [hlen]
    · intro s hs
      rcases List.mem_cons.mp hs with h | h
      · rw [h, h2]
      · exact hstats s h

/-- C6: with a uniqueness test that rejects every candidate and
max_retries = R, reproduce performs for every parent exactly (hence at most)
R mutate retries followed by exactly (hence at most) R regenerate retries,
then drops the parent; over the whole call zero children are admitted into
genomes or to_evaluate. -/
theorem always_reject_budget {α σ : Type} [DecidableEq σ]
    (cfg : UniqueReproducerConfig α σ) (ops : GenomeOps α)
    (st : ReproducerState σ) (pop : Population α σ) (arch : Finset σ) (R : Nat)
    (hmax : cfg.max_retries = (R : Int))
    (hrej : ∀ a g p, (cfg.uniqueness_test a g p).1 = false)
    (harch : st.archive = some arch)
    (hpar : ∀ p ∈ pop.to_reproduce, (dlookup p pop.genomes).isSome) :
    ∃ st' pop' stats,
      reproduce cfg ops st pop = .ok (st', pop', stats) ∧
      pop'.genomes = pop.genomes ∧
      pop'.to_evaluate = pop.to_evaluate ∧
      stats.length = pop.to_reproduce.length ∧
      ∀ s ∈ stats,
        s = (⟨R, true, R, false, none⟩ : ReproStats α) ∧
        s.mutRetries ≤ R ∧ s.finalRetries ≤ R ∧ s.admitted = false := by
  obtain ⟨arch', stats, hrec, hlen, hstats⟩ :=
    reproduceList_reject_all cfg.uniqueness_test ops R hrej pop.to_reproduce
      pop arch st.nextId hpar
  rw [← hmax] at hrec
  have hred : reproduce cfg ops st pop = .ok
      (⟨some arch', st.nextId + pop.to_reproduce.length⟩,
       { pop with
          loggingUnique := some arch'.card,
          savedArchive :=
            if pop.savedArchive = some arch then some arch' else pop.savedArchive },
       stats) := by
    simp only [reproduce, harch, hrec]
  refine ⟨_, _, _, hred, rfl, rfl, hlen, fun s hs => ?_⟩
  have h := hstats s hs
  exact ⟨h, by simp [h], by simp [h], by simp [h]⟩

/- C1 -/

/-- The attach step preserves the genome map, the evaluation set and the
target size of the population. -/
theorem attachOrCreate_preserves (pop : Population α σ) :
    (attachOrCreate pop).2.genomes = pop.genomes ∧
    (attachOrCreate pop).2.to_evaluate = pop.to_evaluate ∧
    (attachOrCreate pop).2.population_size = pop.population_size := by
  cases h : pop.savedArchive <;> simp [attachOrCreate, h]

/-- The generic initialisation loop admits exactly one genome per slot —
whatever the uniqueness test decides — under a fresh id that is also placed
into to_evaluate. -/
theorem initialiseSlots_spec (test : UTest α σ) (ops : GenomeOps α)
    (maxRetries : Int) (n : Nat) :
    ∀ (pop : Population α σ) (arch : Finset σ) (nid : Nat),
      (∀ kv ∈ pop.genomes, kv.1 < nid) →
      (∀ kv ∈ pop.genomes, kv.1 ∈ pop.to_evaluate) →
      (initialiseSlots test ops maxRetries n pop arch nid).1.genomes.length =
        pop.genomes.length + n ∧
      (∀ kv ∈ (initialiseSlots test ops maxRetries n pop arch nid).1.genomes,
        kv.1 < nid + n) ∧
      (∀ kv ∈ (initialiseSlots test ops maxRetries n pop arch nid).1.genomes,
        kv.1 ∈ (initialiseSlots test ops maxRetries n pop arch nid).1.to_evaluate) := by
  induction n with
  | zero =>
    intro pop arch nid h1 h2
    exact ⟨by simp [initialiseSlots],
      by simpa [initialiseSlots] using h1,
      by simpa [initialiseSlots] using h2⟩
  | succ m ih =>
    intro pop arch nid h1 h2
    set g := (generateRetryLoop test ops pop nid maxRetries (ops.generate nid) arch).1
      with hgdef
    set arch1 := (generateRetryLoop test ops pop nid maxRetries (ops.generate nid) arch).2.1
      with harchdef
    set pop1 : Population α σ := { pop with
      genomes := dinsert nid g pop.genomes,
      to_evaluate := insert nid pop.to_evaluate } with hpop1
    have hstep : initialiseSlots test ops maxRetries (m + 1) pop arch nid =
        initialiseSlots test ops maxRetries m pop1 arch1 (nid + 1) := rfl
    have hgen1 : pop1.genomes = pop.genomes ++ [(nid, g)] := by
      rw [hpop1]
      exact dinsert_eq_append nid g pop.genomes
        (fun kv hkv => Nat.ne_of_lt (h1 kv hkv))
    have h1' : ∀ kv ∈ pop1.genomes, kv.1 < nid + 1 := by
      intro kv hkv
      rw [hgen1] at hkv
      rcases List.mem_append.mp hkv with h | h
      · exact Nat.lt_succ_of_lt (h1 kv h)
      · simp at h
        subst h
        exact Nat.lt_succ_self nid
    have h2' : ∀ kv ∈ pop1.genomes, kv.1 ∈ pop1.to_evaluate := by
      intro kv hkv
      rw [hgen1] at hkv
      rcases List.mem_append.mp hkv with h | h
      · exact Finset.mem_insert_of_mem (h2 kv h)
      · simp at h
        subst h
        exact Finset.mem_insert_self nid pop.to_evaluate
    obtain ⟨ihl, ihk, ihm⟩ := ih pop1 arch1 (nid + 1) h1' h2'
    rw [hstep]
    refine ⟨?_, ?_, ihm⟩
    · rw [ihl, hgen1]
      simp only [List.length_append, List.length_cons, List.length_nil]
      omega
    · intro kv hkv
      have := ihk kv hkv
      omega

/-- C1: starting from a population with no genomes and an empty to_evaluate
set, with population_size = N, any max_retries R at least 0 and any
uniqueness test, the generic initialisation path (no custom
initialisation_f) succeeds and the population ends with exactly N genomes —
every slot admits its last-generated genome even on retry exhaustion, so
initialization never under-fills — and every admitted genome's id is in
to_evaluate. -/
theorem initialise_fills_population {α σ : Type} [DecidableEq σ]
    (cfg : UniqueReproducerConfig α σ) (ops : GenomeOps α)
    (st : ReproducerState σ) (pop : Population α σ) (N : Nat) (a0 : Finset σ)
    (hR : 0 ≤ cfg.max_retries)
    (hf : cfg.initialisation_f = none)
    (harch : st.archive = some a0)
    (hg : pop.genomes = [])
    (he : pop.to_evaluate = ∅)
    (hN : pop.population_size = N) :
    ∃ st' pop',
      initialise_population cfg ops st pop = .ok (st', pop') ∧
      pop'.genomes.length = N ∧
      ∀ kv ∈ pop'.genomes, kv.1 ∈ pop'.to_evaluate := by
  obtain ⟨hpg, hpe, hps⟩ := attachOrCreate_preserves (σ := σ) pop
  have hred : initialise_population cfg ops st pop = .ok
      (⟨some (initialiseSlots cfg.uniqueness_test ops cfg.max_retries
            ((attachOrCreate pop).2.population_size - (attachOrCreate pop).2.to_evaluate.card)
            (attachOrCreate pop).2 (attachOrCreate pop).1 st.nextId).2.1,
        (initialiseSlots cfg.uniqueness_test ops cfg.max_retries
            ((attachOrCreate pop).2.population_size - (attachOrCreate pop).2.to_evaluate.card)
            (attachOrCreate pop).2 (attachOrCreate pop).1 st.nextId).2.2⟩,
       { (initialiseSlots cfg.uniqueness_test ops cfg.max_retries
            ((attachOrCreate pop).2.population_size - (attachOrCreate pop).2.to_evaluate.card)
            (attachOrCreate pop).2 (attachOrCreate pop).1 st.nextId).1 with
          savedArchive := some (initialiseSlots cfg.uniqueness_test ops cfg.max_retries
            ((attachOrCreate pop).2.population_size - (attachOrCreate pop).2.to_evaluate.card)
            (attachOrCreate pop).2 (attachOrCreate pop).1 st.nextId).2.1 }) := by
    simp only [initialise_population, harch, hf, initialiseFromCheckpoint]
  have hn : (attachOrCreate pop).2.population_size -
      (attachOrCreate pop).2.to_evaluate.card = N := by
    rw [hps, hpe, hN, he]
    simp
  obtain ⟨hl, hk, hm⟩ := initialiseSlots_spec cfg.uniqueness_test ops cfg.max_retries
    ((attachOrCreate pop).2.population_size - (attachOrCreate pop).2.to_evaluate.card)
    (attachOrCreate pop).2 (attachOrCreate pop).1 st.nextId
    (by rw [hpg, hg]; intro kv hkv; simp at hkv)
    (by rw [hpg, hg]; intro kv hkv; simp at hkv)
  refine ⟨_, _, hred, ?_, ?_⟩
  · show (initialiseSlots cfg.uniqueness_test ops cfg.max_retries
        ((attachOrCreate pop).2.population_size - (attachOrCreate pop).2.to_evaluate.card)
        (attachOrCreate pop).2 (attachOrCreate pop).1 st.nextId).1.genomes.length = N
    rw [hl, hpg, hg, hn]
    simp
  · exact hm

/-- C1 witness: population_size = 3, an always-rejecting test and a zero
retry budget still yield exactly 3 genomes, all queued for evaluation. -/
theorem initialise_fills_population_witness :
    ∃ st' pop',
      initialise_population ⟨rejectAllTest, 0, none⟩ natOps ⟨some ∅, 0⟩
          ⟨[], ∅, [], 3, none, none⟩ = .ok (st', pop') ∧
      pop'.genomes.length = 3 ∧
      ∀ kv ∈ pop'.genomes, kv.1 ∈ pop'.to_evaluate :=
  initialise_fills_population ⟨rejectAllTest, 0, none⟩ natOps ⟨some ∅, 0⟩
    ⟨[], ∅, [], 3, none, none⟩ 3 ∅ (by decide) rfl rfl rfl rfl rfl

/- C8 -/

/-- Against an always-accepting test one parent's pass admits the very first
mutate candidate with zero retries and without entering the regenerate
fallback. -/
theorem reproduceOne_accept_all (test : UTest α σ) (ops : GenomeOps α)
    (maxRetries : Int) (pop : Population α σ) (arch : Finset σ)
    (parentId : Nat) (parentGenome : Genome α) (childId : Nat)
    (hacc : ∀ a g p, (test a g p).1 = true) (hpos : 0 < maxRetries) :
    reproduceOne test ops maxRetries pop arch parentId parentGenome childId =
      ({ pop with
          genomes := dinsert (ops.mutate parentGenome childId).genome_id
            (ops.mutate parentGenome childId) pop.genomes,
          to_evaluate := insert (ops.mutate parentGenome childId).genome_id
            pop.to_evaluate },
       (test arch (ops.mutate parentGenome childId) pop).2,
       ⟨0, false, 0, true, some (ops.mutate parentGenome childId)⟩) := by
  have hm : mutateRetryLoop test ops pop parentId childId maxRetries
      (ops.mutate parentGenome childId) arch =
      (ops.mutate parentGenome childId,
       (test arch (ops.mutate parentGenome childId) pop).2, 0) := by
    rw [mutateRetryLoop, mutateRetryAux.eq_def]
    simp [hacc]
  have hne : ((0 : Int)) ≠ maxRetries := by omega
  simp [reproduceOne, hm, hne, hpos]

/-- Expected children only depend on the lookups of the parents. -/
theorem expectedChildren_congr (ops : GenomeOps α) (l1 l2 : List (Nat × Genome α))
    (parents : List Nat)
    (h : ∀ p ∈ parents, dlookup p l1 = dlookup p l2) :
    ∀ nid, expectedChildren ops l1 parents nid = expectedChildren ops l2 parents nid := by
  induction parents with
  | nil => intro nid; rfl
  | cons p rest ih =>
    intro nid
    have hp := h p (by simp)
    simp only [expectedChildren, hp]
    cases hl : dlookup p l2 with
    | none => rfl
    | some g =>
      rw [ih (fun q hq => h q (by simp [hq])) (nid + 1)]

/-- One expected child per present parent. -/
theorem expectedChildren_length (ops : GenomeOps α) (l : List (Nat × Genome α))
    (parents : List Nat)
    (h : ∀ p ∈ parents, (dlookup p l).isSome) :
    ∀ nid, (expectedChildren ops l parents nid).length = parents.length := by
  induction parents with
  | nil => intro _; rfl
  | cons p rest ih =>
    intro nid
    obtain ⟨g, hg⟩ := Option.isSome_iff_exists.mp (h p (by simp))
    simp only [expectedChildren, hg, List.length_cons]
    rw [ih (fun q hq => h q (by simp [hq])) (nid + 1)]

/-- Against an always-accepting test the parent loop appends exactly the
expected children (each parent's genome mutated once into a fresh id), puts
each child id into to_evaluate, and reports zero retries for every parent. -/
theorem reproduceList_accept_all (test : UTest α σ) (ops : GenomeOps α)
    (maxRetries : Int)
    (hacc : ∀ a g p, (test a g p).1 = true) (hpos : 0 < maxRetries)
    (hid : ∀ g i, (ops.mutate g i).genome_id = i) (parents : List Nat) :
    ∀ (pop : Population α σ) (arch : Finset σ) (nid : Nat),
      (∀ p ∈ parents, (dlookup p pop.genomes).isSome) →
      (∀ kv ∈ pop.genomes, kv.1 < nid) →
      ∃ pop' arch' stats,
        reproduceList test ops maxRetries parents pop arch nid =
          .ok (pop', arch', nid + parents.length, stats) ∧
        pop'.genomes = pop.genomes ++ expectedChildren ops pop.genomes parents nid ∧
        stats = (expectedChildren ops pop.genomes parents nid).map
          (fun kv => ⟨0, false, 0, true, some kv.2⟩) ∧
        pop.to_evaluate ⊆ pop'.to_evaluate ∧
        (∀ kv ∈ expectedChildren ops pop.genomes parents nid,
          kv.1 ∈ pop'.to_evaluate) := by
  induction parents with
  | nil =>
    intro pop arch nid _ _
    exact ⟨pop, arch, [], by simp [reproduceList], by simp [expectedChildren],
      by simp [expectedChildren], Finset.Subset.refl _, by simp [expectedChildren]⟩
  | cons p rest ih =>
    intro pop arch nid hpar hfresh
    obtain ⟨g, hg⟩ := Option.isSome_iff_exists.mp (hpar p (by simp))
    have hone := reproduceOne_accept_all test ops maxRetries pop arch p g nid hacc hpos
    set c := ops.mutate g nid with hc
    have hcid : c.genome_id = nid := hid g nid
    set pop1 : Population α σ := { pop with
      genomes := dinsert c.genome_id c pop.genomes,
      to_evaluate := insert c.genome_id pop.to_evaluate } with hpop1
    have hgen1 : pop1.genomes = pop.genomes ++ [(nid, c)] := by
      rw [hpop1]
      simp only []
      rw [hcid]
      exact dinsert_eq_append nid c pop.genomes
        (fun kv hkv => Nat.ne_of_lt (hfresh kv hkv))
    have hlkp : ∀ q ∈ rest, dlookup q pop1.genomes = dlookup q pop.genomes := by
      intro q hq
      obtain ⟨gq, hgq⟩ := Option.isSome_iff_exists.mp (hpar q (by simp [hq]))
      have hqlt : q < nid := by
        have := hfresh (q, gq) (dlookup_mem q gq pop.genomes hgq)
        simpa using this
      have hne : q ≠ c.genome_id := by rw [hcid]; omega
      exact dlookup_dinsert_ne c.genome_id q hne c pop.genomes
    have hpar1 : ∀ q ∈ rest, (dlookup q pop1.genomes).isSome := by
      intro q hq
      rw [hlkp q hq]
      exact hpar q (by simp [hq])
    have hfresh1 : ∀ kv ∈ pop1.genomes, kv.1 < nid + 1 := by
      intro kv hkv
      rw [hgen1] at hkv
      rcases List.mem_append.mp hkv with h | h
      · exact Nat.lt_succ_of_lt (hfresh kv h)
      · simp at h
        subst h
        exact Nat.lt_succ_self nid
    obtain ⟨pop', arch', stats, hrec, hgen', hstats, hsub, hmem⟩ :=
      ih pop1 (test arch c pop).2 (nid + 1) hpar1 hfresh1
    have hE : expectedChildren ops pop1.genomes rest (nid + 1) =
        expectedChildren ops pop.genomes rest (nid + 1) :=
      expectedChildren_congr ops pop1.genomes pop.genomes rest hlkp (nid + 1)
    refine ⟨pop', arch',
      (⟨0, false, 0, true, some c⟩ : ReproStats α) :: stats, ?_, ?_, ?_, ?_, ?_⟩
    · have harith : nid + 1 + rest.length = nid + (p :: rest).length := by
        simp; omega
      rw [harith] at hrec
      simp only [reproduceList, hg, hone, hrec]
    · rw [hgen', hE, hgen1]
      simp [expectedChildren, hg, List.append_assoc]
    · rw [hstats, hE]
      simp [expectedChildren, hg]
    · exact fun x hx => hsub (Finset.mem_insert_of_mem hx)
    · intro kv hkv
      simp only [expectedChildren, hg, List.mem_cons] at hkv
      rcases hkv with h | h
      · subst h
        exact hsub (by rw [← hcid]; exact Finset.mem_insert_self c.genome_id pop.to_evaluate)
      · rw [← hE] at h
        exact hmem kv h

/-- C8: with a uniqueness test that accepts every candidate on the first
call and positive max_retries, every parent in to_reproduce yields exactly
one admitted child, produced by the first mutate attempt, with zero retries
consumed and the regenerate fallback never entered. -/
theorem always_accept_fast_path {α σ : Type} [DecidableEq σ]
    (cfg : UniqueReproducerConfig α σ) (ops : GenomeOps α)
    (st : ReproducerState σ) (pop : Population α σ) (arch : Finset σ)
    (hacc : ∀ a g p, (cfg.uniqueness_test a g p).1 = true)
    (hpos : 0 < cfg.max_retries)
    (harch : st.archive = some arch)
    (hid : ∀ g i, (ops.mutate g i).genome_id = i)
    (hpar : ∀ p ∈ pop.to_reproduce, (dlookup p pop.genomes).isSome)
    (hfresh : ∀ kv ∈ pop.genomes, kv.1 < st.nextId) :
    ∃ st' pop' stats,
      reproduce cfg ops st pop = .ok (st', pop', stats) ∧
      pop'.genomes = pop.genomes ++
        expectedChildren ops pop.genomes pop.to_reproduce st.nextId ∧
      stats = (expectedChildren ops pop.genomes pop.to_reproduce st.nextId).map
        (fun kv => ⟨0, false, 0, true, some kv.2⟩) ∧
      (∀ kv ∈ expectedChildren ops pop.genomes pop.to_reproduce st.nextId,
        kv.1 ∈ pop'.to_evaluate) ∧
      pop'.genomes.length = pop.genomes.length + pop.to_reproduce.length := by
  obtain ⟨pop', arch', stats, hrec, hgenomes, hstats, hsub, hmem⟩ :=
    reproduceList_accept_all cfg.uniqueness_test ops cfg.max_retries hacc hpos hid
      pop.to_reproduce pop arch st.nextId hpar hfresh
  have hred : reproduce cfg ops st pop = .ok
      (⟨some arch', st.nextId + pop.to_reproduce.length⟩,
       { pop' with
          loggingUnique := some arch'.card,
          savedArchive :=
            if pop.savedArchive = some arch then some arch' else pop'.savedArchive },
       stats) := by
    simp only [reproduce, harch, hrec]
  refine ⟨_, _, _, hred, hgenomes, hstats, hmem, ?_⟩
  show pop'.genomes.length = pop.genomes.length + pop.to_reproduce.length
  rw [hgenomes, List.length_append,
    expectedChildren_length ops pop.genomes pop.to_reproduce hpar st.nextId]

/-- C8 witness: two parents, an always-accepting test, max_retries = 1. -/
theorem always_accept_fast_path_witness :
    ∃ st' pop' stats,
      reproduce ⟨acceptAllTest, 1, none⟩ natOps ⟨some ∅, 10⟩
          ⟨[(0, ⟨0, 0⟩), (1, ⟨1, 5⟩)], ∅, [0, 1], 2, none, none⟩ =
        .ok (st', pop', stats) ∧
      pop'.genomes = [(0, ⟨0, 0⟩), (1, ⟨1, 5⟩)] ++
        expectedChildren natOps [(0, ⟨0, 0⟩), (1, ⟨1, 5⟩)] [0, 1] 10 ∧
      stats = (expectedChildren natOps [(0, ⟨0, 0⟩), (1, ⟨1, 5⟩)] [0, 1] 10).map
        (fun kv => ⟨0, false, 0, true, some kv.2⟩) ∧
      (∀ kv ∈ expectedChildren natOps [(0, ⟨0, 0⟩), (1, ⟨1, 5⟩)] [0, 1] 10,
        kv.1 ∈ pop'.to_evaluate) ∧
      pop'.genomes.length = 2 + 2 :=
  always_accept_fast_path ⟨acceptAllTest, 1, none⟩ natOps ⟨some ∅, 10⟩
    ⟨[(0, ⟨0, 0⟩), (1, ⟨1, 5⟩)], ∅, [0, 1], 2, none, none⟩ ∅
    (fun _ _ _ => rfl) (by decide) rfl (fun _ _ => rfl) (by decide) (by decide)

/-- C6 witness: one parent, always-rejecting test, R = 2. -/
theorem always_reject_budget_witness :
    ∃ st' pop' stats,
      reproduce ⟨rejectAllTest, ((2 : Nat) : Int), none⟩ natOps ⟨some ∅, 1⟩
          ⟨[(0, ⟨0, 0⟩)], ∅, [0], 1, none, none⟩ = .ok (st', pop', stats) ∧
      pop'.genomes = [(0, ⟨0, 0⟩)] ∧
      pop'.to_evaluate = ∅ ∧
      stats.length = 1 ∧
      ∀ s ∈ stats,
        s = (⟨2, true, 2, false, none⟩ : ReproStats Nat) ∧
        s.mutRetries ≤ 2 ∧ s.finalRetries ≤ 2 ∧ s.admitted = false :=
  always_reject_budget ⟨rejectAllTest, ((2 : Nat) : Int), none⟩ natOps
    ⟨some ∅, 1⟩ ⟨[(0, ⟨0, 0⟩)], ∅, [0], 1, none, none⟩ ∅ 2 rfl
    (fun _ _ _ => rfl) rfl (by decide)


end Erpy
